import Mathlib

/-!
Shallow embedding of `src/buffer.rs` (the text-buffer core of the editor).

Modelling conventions:
* `String` is modelled as `List Char`; columns are character indices, as the
  source treats them.
* `f32` quantities (`scroll`, pixel coordinates, `SCALE`) are modelled as `ℚ`
  with exact arithmetic; every concrete value appearing in theorems below is
  exactly representable in `f32`, so the rational model agrees with the
  floating-point evaluation there.
* File I/O is external: `Buffer.new` receives the already-read file content,
  `Buffer.save` returns the text that `std::fs::write` would receive.
* The syntect highlighter (`syntax_set`/`theme_set` plus
  `ParseState::parse_line` / `RangedHighlightIterator`) is an external
  collaborator; it is modelled as an abstract stateful line highlighter
  (`Highlighter`), with the color type `α` abstract (`[f32; 4]` in the source).
* Rust `as usize` casts of `f32` saturate negatives to `0`; this is modelled
  by `Int.toNat`. Rust `f32::round` is round-half-away-from-zero, which on
  the non-negative inputs produced in `hit_test` coincides with Mathlib's
  `round`.
-/

/-- Source: `const SCALE: f32 = 40.0;` -/
def SCALE : ℚ := 40

/-- Source: `struct Location { row: usize, col: usize }` -/
structure Location where
  row : Nat
  col : Nat
deriving DecidableEq, Repr

/-- Source: `Location::new()` -/
def Location.new : Location := ⟨0, 0⟩

/-- The derived `Ord` on `Location`: lexicographic, row first, then col
(the source notes "Row must be before col so that ordering is done properly!"). -/
def Location.le (a b : Location) : Prop :=
  a.row < b.row ∨ (a.row = b.row ∧ a.col ≤ b.col)

instance (a b : Location) : Decidable (Location.le a b) :=
  inferInstanceAs (Decidable (_ ∨ _))

/-- Rust `Ord::min`: returns the first argument when the two are equal. -/
def Location.min (a b : Location) : Location :=
  if Location.le a b then a else b

/-- Rust `Ord::max`: returns the second argument when the two are equal. -/
def Location.max (a b : Location) : Location :=
  if Location.le a b then b else a

/-- Source: `struct Span { start: Location, end: Location }`.
The source field `end` is a reserved word in Lean, hence `stop`. -/
structure Span where
  start : Location
  stop : Location
deriving DecidableEq, Repr

/-- Source: `Span::new`: "Creates a new span and ensures that start <= end." -/
def Span.new (start stop : Location) : Span :=
  { start := Location.min start stop, stop := Location.max start stop }

/-- Source: `Span::contains_line` -/
def Span.contains_line (s : Span) (line : Nat) : Prop :=
  s.start.row ≤ line ∧ line ≤ s.stop.row

instance (s : Span) (line : Nat) : Decidable (s.contains_line line) :=
  inferInstanceAs (Decidable (_ ∧ _))

/-- Source: `Span::get_char_indices_for_line` -/
def Span.get_char_indices_for_line (s : Span) (line : Nat) (line_length : Nat) :
    Option (Nat × Nat) :=
  if ¬ s.contains_line line then none
  else if s.start.row = s.stop.row then some (s.start.col, s.stop.col)
  else if s.start.row = line then some (s.start.col, line_length)
  else if s.stop.row = line then some (0, s.stop.col)
  else some (0, line_length)

/-- Source: `struct Cursor { location, col_affinity, selection_start }` -/
structure Cursor where
  location : Location
  col_affinity : Nat
  selection_start : Option Location
deriving DecidableEq, Repr

/-- Source: `Cursor::new()` -/
def Cursor.new : Cursor :=
  { location := Location.new, col_affinity := 0, selection_start := none }

/-- Source: `Cursor::set_row` -/
def Cursor.set_row (c : Cursor) (row : Nat) : Cursor :=
  { c with location.row := row }

/-- Source: `Cursor::set_col` -/
def Cursor.set_col (c : Cursor) (col : Nat) : Cursor :=
  { c with location.col := col }

/-- Source: `Cursor::set_col_with_affinity` -/
def Cursor.set_col_with_affinity (c : Cursor) (col : Nat) : Cursor :=
  { c with location.col := col, col_affinity := col }

/-- Source: `Cursor::selection_span` -/
def Cursor.selection_span (c : Cursor) : Option Span :=
  match c.selection_start with
  | none => none
  | some selection_start => some (Span.new selection_start c.location)

/-- Abstract model of the external syntect highlighting collaborator
(`syntax_set` + `theme_set` + `ParseState`/`HighlightState`): a stateful
session over lines.  `advance_line` models one iteration of the loop body of
`generate_highlight_info` (`parse_line` + `RangedHighlightIterator`): it maps
the running parse/highlight state and a line to the updated state and the
ordered `(column range, color)` runs of that line.  `σ` is the session state,
`α` the color type (`[f32; 4]` in the source); a run `((s, e), c)` stands for
`Range { start := s, end := e }` with color `c`. -/
structure Highlighter (σ α : Type) where
  init : σ
  advance_line : σ → List Char → σ × List ((Nat × Nat) × α)

/-- The line loop of `generate_highlight_info`, threading the session state. -/
def genHighlightGo (hl : Highlighter σ α) : σ → List (List Char) → List (List ((Nat × Nat) × α))
  | _, [] => []
  | st, line :: rest =>
    let step := hl.advance_line st line
    step.2 :: genHighlightGo hl step.1 rest

/-- Source: `generate_highlight_info`: clears `info` and rebuilds one run list per
line, threading the highlighter state across lines from its initial state. -/
def generate_highlight_info (hl : Highlighter σ α) (lines : List (List Char)) :
    List (List ((Nat × Nat) × α)) :=
  genHighlightGo hl hl.init lines

/-- Source: `winit::dpi::PhysicalSize<u32>` -/
structure PhysicalSize where
  width : Nat
  height : Nat
deriving DecidableEq, Repr

/-- Source: `winit::dpi::PhysicalPosition<i32>` -/
structure PhysicalPosition where
  x : Int
  y : Int
deriving DecidableEq, Repr

/-- Source: `winit::event::MouseButton` (the `Other(u16)` payload is irrelevant here). -/
inductive MouseButton
  | Left
  | Right
  | Middle
  | OtherButton
deriving DecidableEq, Repr

/-- Source: `winit::event::ElementState` -/
inductive ElementState
  | Pressed
  | Released
deriving DecidableEq, Repr

/-- The `winit::event::VirtualKeyCode` cases the buffer distinguishes. -/
inductive VirtualKeyCode
  | Up
  | Down
  | Left
  | Right
  | OtherKey
deriving DecidableEq, Repr

/-- Source: `winit::event::KeyboardInput` (the fields the buffer reads). -/
structure KeyboardInput where
  state : ElementState
  virtual_keycode : Option VirtualKeyCode
deriving DecidableEq, Repr

/-- Source: `struct Buffer`.  The `path` field is dropped (file I/O is external);
`hl` stands for the `syntax_set`/`theme_set` pair, i.e. the highlighting
collaborator used by `generate_highlight_info`. -/
structure Buffer (σ α : Type) where
  lines : List (List Char)
  highlight_info : List (List ((Nat × Nat) × α))
  scroll : ℚ
  cursor : Cursor
  dragging : Bool
  size : PhysicalSize
  hl : Highlighter σ α

/-- Rust `file.split('\n')`: splits on every newline, keeping empty pieces,
so the result is never empty and a trailing newline yields a trailing `[]`. -/
def splitNl : List Char → List (List Char)
  | [] => [[]]
  | c :: rest =>
    if c = '\n' then [] :: splitNl rest
    else
      match splitNl rest with
      | [] => [[c]]
      | l :: ls => (c :: l) :: ls

/-- Rust `lines.join("\n")`. -/
def joinNl : List (List Char) → List Char
  | [] => []
  | [l] => l
  | l :: ls => l ++ '\n' :: joinNl ls

/-- Source: `Buffer::new`: `file` is the content `std::fs::read_to_string` returned. -/
def Buffer.new (size : PhysicalSize) (file : List Char) (hl : Highlighter σ α) :
    Buffer σ α :=
  let lines0 := splitNl file
  let lines := if lines0.isEmpty then [[]] else lines0
  { highlight_info := generate_highlight_info hl lines
    scroll := 0
    lines := lines
    cursor := Cursor.new
    size := size
    hl := hl
    dragging := false }

/-- Source: `Buffer::save`: the text handed to `std::fs::write`. -/
def Buffer.save (b : Buffer σ α) : List Char := joinNl b.lines

/-- Source: `Buffer::update_size` -/
def Buffer.update_size (b : Buffer σ α) (size : PhysicalSize) : Buffer σ α :=
  { b with size := size }

/-- Source: `Buffer::ensure_cursor_in_view` -/
def Buffer.ensure_cursor_in_view (b : Buffer σ α) : Buffer σ α :=
  let cursor_y : ℚ := (b.cursor.location.row : ℚ) * SCALE
  let bottom : ℚ := b.scroll + (b.size.height : ℚ)
  if cursor_y < b.scroll then { b with scroll := cursor_y }
  else if cursor_y + SCALE > bottom then
    { b with scroll := cursor_y - (b.size.height : ℚ) + SCALE + 5 }
  else b

/-- Source: `Buffer::scroll` (renamed: the structure field is already called `scroll`). -/
def Buffer.scroll_by (b : Buffer σ α) (delta : ℚ) : Buffer σ α :=
  let max_scroll : ℚ :=
    if b.lines.isEmpty then 0
    else ((b.lines.length - 1 : Nat) : ℚ) * SCALE + 5
  { b with scroll := min (max (b.scroll + delta) 0) max_scroll }

/-- Source: `self.lines.len().to_string().chars().count()` -/
def digitCount (n : Nat) : Nat := (Nat.toDigits 10 n).length

/-- The hard-coded `h_advance = 19.065777` of `hit_test`. -/
def h_advance : ℚ := 19065777 / 1000000

/-- Source: `Buffer::hit_test`.  `(y / 40).floor() as usize` saturates negatives to 0
(`Int.toNat`); `round` agrees with `f32::round` on the non-negative `abs_x`. -/
def Buffer.hit_test (b : Buffer σ α) (position : PhysicalPosition) : Location :=
  let x_pad : ℚ := 10
  let digit_count := digitCount b.lines.length
  let gutter_offset : ℚ := x_pad + 30 + (digit_count : ℚ) * (SCALE / 2)
  let abs_x : ℚ := max ((position.x : ℚ) - gutter_offset) 0
  let abs_y : ℚ := (position.y : ℚ) + b.scroll
  let line := (Int.floor (abs_y / 40)).toNat
  if b.lines.length ≤ line then
    { row := b.lines.length - 1, col := (b.lines.getLastD []).length }
  else
    let col := (round (abs_x / h_advance)).toNat
    { row := line, col := Nat.min col (b.lines.getD line []).length }

/-- Source: `Buffer::handle_mouse_input` -/
def Buffer.handle_mouse_input (b : Buffer σ α) (button : MouseButton)
    (state : ElementState) (position : PhysicalPosition) : Buffer σ α :=
  if button = MouseButton.Left then
    if state = ElementState.Pressed then
      let b1 : Buffer σ α := { b with cursor.selection_start := none }
      let location := b1.hit_test position
      { b1 with
        cursor := (b1.cursor.set_row location.row).set_col_with_affinity location.col
        dragging := true }
    else { b with dragging := false }
  else b

/-- Source: `Buffer::handle_mouse_move` -/
def Buffer.handle_mouse_move (b : Buffer σ α) (position : PhysicalPosition) :
    Buffer σ α :=
  if b.dragging then
    let b1 : Buffer σ α :=
      if b.cursor.selection_start.isNone then
        { b with cursor.selection_start := some b.cursor.location }
      else b
    let location := b1.hit_test position
    { b1 with
      cursor := (b1.cursor.set_row location.row).set_col_with_affinity location.col }
  else b

/-- The backspace control character `'\u{8}'`. -/
def backspaceChar : Char := Char.ofNat 8

/-- The forward-delete control character `'\u{7f}'`. -/
def deleteChar : Char := Char.ofNat 127

/-- The mutation part of `Buffer::handle_char_input` (lines 278-308 of the
source), before `ensure_cursor_in_view` and the highlight rebuild. -/
def Buffer.apply_char_edit (b : Buffer σ α) (input : Char) : Buffer σ α :=
  let row := b.cursor.location.row
  let col := b.cursor.location.col
  if input = '\n' ∨ input = '\r' then
    -- `let new_line = self.lines[row].split_off(col)`: the line keeps its
    -- first `col` characters, `new_line` is the tail.
    let line := b.lines.getD row []
    let lines1 := b.lines.set row (line.take col)
    let c1 := b.cursor.set_row (row + 1)
    let lines2 := lines1.insertIdx (row + 1) (line.drop col)
    { b with lines := lines2, cursor := c1.set_col_with_affinity 0 }
  else if input = backspaceChar then
    if 0 < col then
      let line := b.lines.getD row []
      { b with
        lines := b.lines.set row (line.eraseIdx (col - 1))
        cursor := b.cursor.set_col_with_affinity (col - 1) }
    else if 0 < row then
      -- `let remaining = self.lines.remove(row)`, then the cursor moves to
      -- the previous line whose old length becomes the column, then
      -- `remaining` is appended to that line.
      let remaining := b.lines.getD row []
      let lines1 := b.lines.eraseIdx row
      let c1 := b.cursor.set_row (row - 1)
      let prev := lines1.getD (row - 1) []
      let c2 := c1.set_col_with_affinity prev.length
      { b with lines := lines1.set (row - 1) (prev ++ remaining), cursor := c2 }
    else b
  else if input = deleteChar then
    let line := b.lines.getD row []
    if col < line.length then
      { b with lines := b.lines.set row (line.eraseIdx col) }
    else b
  else if input = '\t' then b
  else
    let line := b.lines.getD row []
    { b with
      lines := b.lines.set row (line.insertIdx col input)
      cursor := b.cursor.set_col (col + 1) }

/-- Source: `Buffer::handle_char_input`: mutate, then `ensure_cursor_in_view`, then
rebuild the highlight info from the (new) lines. -/
def Buffer.handle_char_input (b : Buffer σ α) (input : Char) : Buffer σ α :=
  let b2 := (b.apply_char_edit input).ensure_cursor_in_view
  { b2 with highlight_info := generate_highlight_info b2.hl b2.lines }

/-- The `match keycode` body of `Buffer::handle_keyboard_input` (before the
final `ensure_cursor_in_view`).  The Up row is clamped into
`[0, lines.len()]` and the Down row into `[0, lines.len() - 1]`, computed in
`isize` exactly as in the source. -/
def Buffer.apply_keyboard (b : Buffer σ α) (keycode : VirtualKeyCode) : Buffer σ α :=
  match keycode with
  | VirtualKeyCode.Up =>
    let c0 := { b.cursor with selection_start := none }
    let row := (min (max ((b.cursor.location.row : Int) - 1) 0)
      (b.lines.length : Int)).toNat
    let col := Nat.min (b.lines.getD row []).length b.cursor.col_affinity
    { b with cursor := (c0.set_row row).set_col col }
  | VirtualKeyCode.Down =>
    let c0 := { b.cursor with selection_start := none }
    let row := (min (max ((b.cursor.location.row : Int) + 1) 0)
      ((b.lines.length : Int) - 1)).toNat
    let col := Nat.min (b.lines.getD row []).length b.cursor.col_affinity
    { b with cursor := (c0.set_row row).set_col col }
  | VirtualKeyCode.Left =>
    let c0 := { b.cursor with selection_start := none }
    if b.cursor.location.col = 0 then
      if 0 < b.cursor.location.row then
        let c1 := c0.set_row (b.cursor.location.row - 1)
        { b with
          cursor := c1.set_col_with_affinity (b.lines.getD c1.location.row []).length }
      else { b with cursor := c0 }
    else { b with cursor := c0.set_col_with_affinity (b.cursor.location.col - 1) }
  | VirtualKeyCode.Right =>
    let c0 := { b.cursor with selection_start := none }
    if (b.lines.getD b.cursor.location.row []).length ≤ b.cursor.location.col then
      if b.cursor.location.row < b.lines.length - 1 then
        let c1 := c0.set_row (b.cursor.location.row + 1)
        { b with cursor := c1.set_col_with_affinity 0 }
      else { b with cursor := c0 }
    else { b with cursor := c0.set_col_with_affinity (b.cursor.location.col + 1) }
  | VirtualKeyCode.OtherKey => b

/-- Source: `Buffer::handle_keyboard_input`: early-returns on a missing keycode or a
key release; otherwise dispatches on the keycode and ends with
`ensure_cursor_in_view` (also for unhandled keycodes). -/
def Buffer.handle_keyboard_input (b : Buffer σ α) (input : KeyboardInput) :
    Buffer σ α :=
  match input.virtual_keycode with
  | none => b
  | some keycode =>
    if input.state = ElementState.Released then b
    else (b.apply_keyboard keycode).ensure_cursor_in_view

/-- The cursor-in-bounds well-formedness of a buffer: the cursor row names an
existing line and the cursor column is at most that line's length.  This holds
for every state reachable through the public interface and is exactly what the
source's unchecked indexing (`self.lines[row]`, `String::insert`, …) needs to
not panic. -/
def Buffer.wf (b : Buffer σ α) : Prop :=
  b.cursor.location.row < b.lines.length ∧
  b.cursor.location.col ≤ (b.lines.getD b.cursor.location.row []).length

instance (b : Buffer σ α) : Decidable b.wf :=
  inferInstanceAs (Decidable (_ ∧ _))

/-- The spec's contract for a highlighter's per-line output: runs are listed
in increasing column order, non-overlapping, and together cover exactly
`[s, len)` — each run starts where the previous one ended. -/
def RunsCover (s len : Nat) : List ((Nat × Nat) × α) → Prop
  | [] => s = len
  | ((a, b), _) :: rest => a = s ∧ s ≤ b ∧ RunsCover b len rest

/-- A trivial concrete highlighter (no runs), for concrete instances. -/
def trivialHl : Highlighter Unit Unit :=
  { init := (), advance_line := fun _ _ => ((), []) }

/-- A concrete highlighter producing one full-line run, for concrete instances. -/
def fullLineHl : Highlighter Unit Unit :=
  { init := (), advance_line := fun _ line => ((), [((0, line.length), ())]) }

/-- Concrete fixture: lines `["abc", "de"]`, cursor at `(0,3)`. -/
def abcBuffer : Buffer Unit Unit :=
  { lines := [['a','b','c'], ['d','e']]
    highlight_info := []
    scroll := 0
    cursor := { location := ⟨0, 3⟩, col_affinity := 3, selection_start := none }
    dragging := false
    size := ⟨800, 600⟩
    hl := trivialHl }

/-- Concrete fixture: lines `["ab", "cd"]`, cursor at `(1,0)`. -/
def abBuffer : Buffer Unit Unit :=
  { lines := [['a','b'], ['c','d']]
    highlight_info := []
    scroll := 0
    cursor := { location := ⟨1, 0⟩, col_affinity := 0, selection_start := none }
    dragging := false
    size := ⟨800, 600⟩
    hl := trivialHl }

/-- Concrete fixture: lines `["hello"]`, cursor at `(0,5)` with affinity 5. -/
def helloBuffer : Buffer Unit Unit :=
  { lines := [['h','e','l','l','o']]
    highlight_info := []
    scroll := 0
    cursor := { location := ⟨0, 5⟩, col_affinity := 5, selection_start := none }
    dragging := false
    size := ⟨800, 600⟩
    hl := trivialHl }

/-- Concrete fixture for the viewport-correction counterexample: one empty
line, `scroll = 10`, a 30-pixel-tall viewport, cursor at `(0,0)`. -/
def smallViewBuffer : Buffer Unit Unit :=
  { lines := [[]]
    highlight_info := [[]]
    scroll := 10
    cursor := Cursor.new
    dragging := false
    size := ⟨800, 30⟩
    hl := trivialHl }

/-- Concrete fixture with a 45-pixel-tall viewport. -/
def tallViewBuffer : Buffer Unit Unit :=
  { lines := [[]]
    highlight_info := [[]]
    scroll := 10
    cursor := Cursor.new
    dragging := false
    size := ⟨800, 45⟩
    hl := trivialHl }

/-! ## Basic facts about the embedded operations -/

theorem ensure_lines (b : Buffer σ α) : b.ensure_cursor_in_view.lines = b.lines := by
  unfold Buffer.ensure_cursor_in_view
  dsimp only
  split_ifs <;> rfl

theorem ensure_cursor (b : Buffer σ α) : b.ensure_cursor_in_view.cursor = b.cursor := by
  unfold Buffer.ensure_cursor_in_view
  dsimp only
  split_ifs <;> rfl

theorem ensure_size (b : Buffer σ α) : b.ensure_cursor_in_view.size = b.size := by
  unfold Buffer.ensure_cursor_in_view
  dsimp only
  split_ifs <;> rfl

theorem ensure_hl (b : Buffer σ α) : b.ensure_cursor_in_view.hl = b.hl := by
  unfold Buffer.ensure_cursor_in_view
  dsimp only
  split_ifs <;> rfl

theorem apply_char_edit_hl (b : Buffer σ α) (c : Char) :
    (b.apply_char_edit c).hl = b.hl := by
  unfold Buffer.apply_char_edit
  dsimp only
  split_ifs <;> rfl

theorem handle_char_input_lines (b : Buffer σ α) (c : Char) :
    (b.handle_char_input c).lines = (b.apply_char_edit c).lines := by
  unfold Buffer.handle_char_input
  exact ensure_lines _

theorem handle_char_input_cursor (b : Buffer σ α) (c : Char) :
    (b.handle_char_input c).cursor = (b.apply_char_edit c).cursor := by
  unfold Buffer.handle_char_input
  exact ensure_cursor _

theorem handle_char_input_highlight (b : Buffer σ α) (c : Char) :
    (b.handle_char_input c).highlight_info =
      generate_highlight_info b.hl (b.handle_char_input c).lines := by
  unfold Buffer.handle_char_input
  dsimp only
  rw [ensure_hl, ensure_lines, apply_char_edit_hl]

theorem handle_keyboard_pressed (b : Buffer σ α) (k : VirtualKeyCode) :
    b.handle_keyboard_input { state := ElementState.Pressed, virtual_keycode := some k } =
      (b.apply_keyboard k).ensure_cursor_in_view := rfl

theorem apply_keyboard_lines (b : Buffer σ α) (k : VirtualKeyCode) :
    (b.apply_keyboard k).lines = b.lines := by
  cases k <;> (unfold Buffer.apply_keyboard; try split_ifs) <;> rfl

/-! ## List helpers -/

theorem getD_set_self {β : Type} :
    ∀ (l : List β) (n : Nat) (x d : β), n < l.length → (l.set n x).getD n d = x
  | [], n, _, _, h => absurd h (by simp)
  | _ :: _, 0, _, _, _ => rfl
  | _ :: t, n + 1, x, d, h => getD_set_self t n x d (Nat.lt_of_succ_lt_succ h)

theorem getLastD_eq_getD {β : Type} :
    ∀ (l : List β) (d : β), l ≠ [] → l.getLastD d = l.getD (l.length - 1) d
  | [], _, h => absurd rfl h
  | [_], _, _ => rfl
  | a :: b :: t, d, _ => by
    have ih := getLastD_eq_getD (b :: t) d (by simp)
    simpa [List.getLastD] using ih

theorem set_insertIdx_split {β : Type} :
    ∀ (l : List β) (n : Nat) (x y : β), n < l.length →
      (l.set n x).insertIdx (n + 1) y = l.take n ++ [x, y] ++ l.drop (n + 1)
  | [], n, _, _, h => absurd h (by simp)
  | _ :: t, 0, x, y, _ => by simp
  | a :: t, n + 1, x, y, h => by
    have ih := set_insertIdx_split t n x y (Nat.lt_of_succ_lt_succ h)
    simp only [List.set, List.insertIdx_succ_cons, List.take, List.drop, List.cons_append, ih]

theorem eraseIdx_set_pred {β : Type} :
    ∀ (l : List β) (n : Nat) (v : β), 0 < n → n < l.length →
      (l.eraseIdx n).set (n - 1) v = l.take (n - 1) ++ [v] ++ l.drop (n + 1)
  | [], _, _, _, h => absurd h (by simp)
  | [_], 1, _, _, h => absurd h (by simp)
  | _ :: b :: t, 1, v, _, _ => by simp [List.eraseIdx]
  | a :: t, n + 2, v, _, h => by
    have ih := eraseIdx_set_pred t (n + 1) v (Nat.succ_pos n) (Nat.lt_of_succ_lt_succ h)
    simp only [Nat.add_sub_cancel] at ih
    simp only [List.eraseIdx, Nat.add_sub_cancel, List.set, List.take, List.drop,
      List.cons_append, ih]

theorem getD_eraseIdx_lt {β : Type} :
    ∀ (l : List β) (n m : Nat) (d : β), m < n → (l.eraseIdx n).getD m d = l.getD m d
  | [], _, _, _, _ => rfl
  | _ :: _, 0, m, _, h => absurd h (Nat.not_lt_zero m)
  | _ :: _, _ + 1, 0, _, _ => rfl
  | _ :: t, n + 1, m + 1, d, h => getD_eraseIdx_lt t n m d (Nat.lt_of_succ_lt_succ h)

theorem splitNl_ne_nil : ∀ (l : List Char), splitNl l ≠ []
  | [] => by simp [splitNl]
  | c :: rest => by
    unfold splitNl
    split_ifs
    · simp
    · cases h : splitNl rest <;> simp

theorem genHighlightGo_length (hl : Highlighter σ α) :
    ∀ (st : σ) (lines : List (List Char)),
      (genHighlightGo hl st lines).length = lines.length
  | _, [] => rfl
  | st, line :: rest =>
    congrArg Nat.succ (genHighlightGo_length hl (hl.advance_line st line).1 rest)

theorem generate_highlight_info_length (hl : Highlighter σ α) (lines : List (List Char)) :
    (generate_highlight_info hl lines).length = lines.length :=
  genHighlightGo_length hl hl.init lines

theorem genHighlightGo_contract (hl : Highlighter σ α)
    (hc : ∀ st line, RunsCover 0 line.length (hl.advance_line st line).2) :
    ∀ (st : σ) (lines : List (List Char)) (i : Nat), i < lines.length →
      RunsCover 0 ((lines.getD i []).length) ((genHighlightGo hl st lines).getD i [])
  | _, [], i, h => absurd h (by simp)
  | st, line :: rest, 0, _ => by
    simpa [genHighlightGo] using hc st line
  | st, line :: rest, i + 1, h => by
    have ih := genHighlightGo_contract hl hc (hl.advance_line st line).1 rest i
      (Nat.lt_of_succ_lt_succ h)
    simpa [genHighlightGo] using ih

theorem splitNl_no_newline :
    ∀ (l : List Char), '\n' ∉ l → splitNl l = [l]
  | [], _ => rfl
  | c :: t, h => by
    have hc : ¬ c = '\n' := fun e => h (e ▸ List.mem_cons_self c t)
    have ih := splitNl_no_newline t (fun hm => h (List.mem_cons_of_mem c hm))
    simp only [splitNl, if_neg hc, ih]

theorem splitNl_append_newline :
    ∀ (l rest : List Char), '\n' ∉ l →
      splitNl (l ++ '\n' :: rest) = l :: splitNl rest
  | [], rest, _ => by simp [splitNl]
  | c :: t, rest, h => by
    have hc : ¬ c = '\n' := fun e => h (e ▸ List.mem_cons_self c t)
    have ih := splitNl_append_newline t rest (fun hm => h (List.mem_cons_of_mem c hm))
    show splitNl (c :: (t ++ '\n' :: rest)) = (c :: t) :: splitNl rest
    rw [splitNl, if_neg hc, ih]

theorem splitNl_joinNl :
    ∀ (ls : List (List Char)), ls ≠ [] → (∀ l ∈ ls, '\n' ∉ l) →
      splitNl (joinNl ls) = ls
  | [], h, _ => absurd rfl h
  | [l], _, h => splitNl_no_newline l (h l (List.mem_singleton.mpr rfl))
  | l1 :: l2 :: rest, _, h => by
    have h1 : '\n' ∉ l1 := h l1 (List.mem_cons_self l1 _)
    have ih := splitNl_joinNl (l2 :: rest) (by simp)
      (fun l hl => h l (List.mem_cons_of_mem l1 hl))
    show splitNl (l1 ++ '\n' :: joinNl (l2 :: rest)) = l1 :: l2 :: rest
    rw [splitNl_append_newline l1 _ h1, ih]

/-! ## Preservation of the cursor-in-bounds invariant -/

theorem wf_apply_char_edit (b : Buffer σ α) (hb : b.wf) (c : Char) :
    (b.apply_char_edit c).wf := by
  obtain ⟨h1, h2⟩ := hb
  unfold Buffer.apply_char_edit Buffer.wf
  dsimp only [Cursor.set_row, Cursor.set_col, Cursor.set_col_with_affinity]
  split_ifs with hnl hbs hcol hrow hdel hlt htab
  · -- newline: split the line, move to (row+1, 0)
    refine ⟨?_, Nat.zero_le _⟩
    show b.cursor.location.row + 1 < _
    rw [List.length_insertIdx _ _ (by rw [List.length_set]; omega), List.length_set]
    omega
  · -- backspace with col > 0
    refine ⟨by simpa using h1, ?_⟩
    show b.cursor.location.col - 1 ≤ _
    rw [getD_set_self _ _ _ _ h1, List.length_eraseIdx_of_lt (by omega)]
    omega
  · -- backspace at col 0, row > 0: merge into the previous line
    have hlen : (b.lines.eraseIdx b.cursor.location.row).length = b.lines.length - 1 :=
      List.length_eraseIdx_of_lt h1
    have hpred : b.cursor.location.row - 1 < (b.lines.eraseIdx b.cursor.location.row).length := by
      rw [hlen]; omega
    refine ⟨?_, ?_⟩
    · show b.cursor.location.row - 1 < _
      rw [List.length_set, hlen]
      omega
    · show ((b.lines.eraseIdx b.cursor.location.row).getD (b.cursor.location.row - 1) []).length ≤ _
      rw [getD_set_self _ _ _ _ hpred]
      simp
  · -- backspace at (0,0): no-op
    exact ⟨h1, h2⟩
  · -- forward-delete with a character under the cursor
    refine ⟨by simpa using h1, ?_⟩
    show b.cursor.location.col ≤ _
    rw [getD_set_self _ _ _ _ h1, List.length_eraseIdx_of_lt hlt]
    omega
  · -- forward-delete past the end: no-op
    exact ⟨h1, h2⟩
  · -- tab: no-op
    exact ⟨h1, h2⟩
  · -- plain character insertion
    refine ⟨by simpa using h1, ?_⟩
    show b.cursor.location.col + 1 ≤ _
    rw [getD_set_self _ _ _ _ h1, List.length_insertIdx _ _ h2]
    omega

theorem wf_ensure (b : Buffer σ α) (hb : b.wf) : b.ensure_cursor_in_view.wf := by
  unfold Buffer.wf at *
  rw [ensure_lines, ensure_cursor]
  exact hb

theorem wf_handle_char_input (b : Buffer σ α) (hb : b.wf) (c : Char) :
    (b.handle_char_input c).wf := by
  have h := wf_apply_char_edit b hb c
  unfold Buffer.wf at *
  rw [handle_char_input_lines, handle_char_input_cursor]
  exact h

theorem wf_apply_keyboard (b : Buffer σ α) (hb : b.wf) (k : VirtualKeyCode) :
    (b.apply_keyboard k).wf := by
  obtain ⟨h1, h2⟩ := hb
  unfold Buffer.apply_keyboard Buffer.wf
  cases k <;>
    dsimp only [Cursor.set_row, Cursor.set_col, Cursor.set_col_with_affinity]
  · -- Up
    exact ⟨by omega, Nat.min_le_left _ _⟩
  · -- Down
    exact ⟨by omega, Nat.min_le_left _ _⟩
  · -- Left
    split_ifs with hc hr
    · exact ⟨by simpa using by omega, by simp⟩
    · exact ⟨by simpa using h1, by simpa using h2⟩
    · refine ⟨by simpa using h1, ?_⟩
      show b.cursor.location.col - 1 ≤ (b.lines.getD b.cursor.location.row []).length
      omega
  · -- Right
    split_ifs with hc hr
    · exact ⟨by simpa using by omega, by simp⟩
    · exact ⟨by simpa using h1, by simpa using h2⟩
    · refine ⟨by simpa using h1, ?_⟩
      show b.cursor.location.col + 1 ≤ (b.lines.getD b.cursor.location.row []).length
      omega
  · -- other keys: no-op
    exact ⟨h1, h2⟩

theorem wf_handle_keyboard_input (b : Buffer σ α) (hb : b.wf) (i : KeyboardInput) :
    (b.handle_keyboard_input i).wf := by
  unfold Buffer.handle_keyboard_input
  rcases i with ⟨st, kc⟩
  cases kc with
  | none => exact hb
  | some k =>
    dsimp only
    split_ifs
    · exact hb
    · exact wf_ensure _ (wf_apply_keyboard b hb k)

theorem hit_test_bounds (b : Buffer σ α) (h : 0 < b.lines.length) (pos : PhysicalPosition) :
    (b.hit_test pos).row < b.lines.length ∧
      (b.hit_test pos).col ≤ (b.lines.getD (b.hit_test pos).row []).length := by
  unfold Buffer.hit_test
  dsimp only
  split_ifs with hline
  · refine ⟨by dsimp only; omega, ?_⟩
    dsimp only
    rw [getLastD_eq_getD _ _ (List.length_pos.mp h)]
  · exact ⟨by dsimp only; omega, by dsimp only; exact Nat.min_le_right _ _⟩

theorem wf_handle_mouse_input (b : Buffer σ α) (hb : b.wf)
    (button : MouseButton) (state : ElementState) (pos : PhysicalPosition) :
    (b.handle_mouse_input button state pos).wf := by
  unfold Buffer.handle_mouse_input
  dsimp only
  split_ifs with hbtn hst
  · have hlen : 0 < b.lines.length := Nat.lt_of_le_of_lt (Nat.zero_le _) hb.1
    have hbt := hit_test_bounds (b := { b with cursor.selection_start := none }) hlen pos
    unfold Buffer.wf
    dsimp only [Cursor.set_row, Cursor.set_col_with_affinity]
    exact hbt
  · exact hb
  · exact hb

theorem wf_handle_mouse_move (b : Buffer σ α) (hb : b.wf) (pos : PhysicalPosition) :
    (b.handle_mouse_move pos).wf := by
  unfold Buffer.handle_mouse_move
  dsimp only
  split_ifs with hd hsel
  · have hlen : 0 < b.lines.length := Nat.lt_of_le_of_lt (Nat.zero_le _) hb.1
    have hbt := hit_test_bounds
      (b := { b with cursor.selection_start := some b.cursor.location }) hlen pos
    unfold Buffer.wf
    dsimp only [Cursor.set_row, Cursor.set_col_with_affinity]
    exact hbt
  · have hlen : 0 < b.lines.length := Nat.lt_of_le_of_lt (Nat.zero_le _) hb.1
    have hbt := hit_test_bounds (b := b) hlen pos
    unfold Buffer.wf
    dsimp only [Cursor.set_row, Cursor.set_col_with_affinity]
    exact hbt
  · exact hb

theorem wf_scroll_by (b : Buffer σ α) (hb : b.wf) (delta : ℚ) :
    (b.scroll_by delta).wf := hb

theorem wf_new (size : PhysicalSize) (file : List Char) (hl : Highlighter σ α) :
    (Buffer.new size file hl).wf := by
  unfold Buffer.new Buffer.wf
  dsimp only [Cursor.new, Location.new]
  constructor
  · split_ifs with he
    · simp
    · simpa [List.isEmpty_iff] using List.length_pos.mpr (by simpa [List.isEmpty_iff] using he)
  · exact Nat.zero_le _

/-! ## Claim theorems -/

/-- C4: for every pair of locations `a` and `b`, `Span::new(a, b)` returns a
span whose start is ≤ its end under the row-first-then-column order, with
`start = min(a, b)` and `end = max(a, b)`, regardless of argument order. -/
theorem span_new_normalizes (a b : Location) :
    Location.le (Span.new a b).start (Span.new a b).stop ∧
    (Span.new a b).start = Location.min a b ∧
    (Span.new a b).stop = Location.max a b := by
  refine ⟨?_, rfl, rfl⟩
  unfold Span.new Location.min Location.max
  dsimp only
  split_ifs with h
  · exact h
  · unfold Location.le at h ⊢
    omega

/-- C9: `save()` joins the lines with single newlines, and splitting the
saved text on the raw newline character (what a subsequent load does)
reproduces the exact original line sequence; consequently `Buffer::new` on
the saved text restores the very same lines.  Requires the lines to be
newline-free, which every buffer loaded by `Buffer::new` satisfies. -/
theorem save_load_roundtrip (b : Buffer σ α) (h1 : b.lines ≠ [])
    (h2 : ∀ l ∈ b.lines, '\n' ∉ l) :
    splitNl b.save = b.lines ∧
    ∀ (size : PhysicalSize) (hl2 : Highlighter σ α),
      (Buffer.new size b.save hl2).lines = b.lines := by
  have hs : splitNl b.save = b.lines := splitNl_joinNl b.lines h1 h2
  refine ⟨hs, fun size hl2 => ?_⟩
  unfold Buffer.new
  dsimp only
  rw [hs, if_neg (by simpa [List.isEmpty_iff] using h1)]

/-- Witness for C9 at a concrete two-line buffer. -/
theorem save_load_roundtrip_witness :
    splitNl abBuffer.save = abBuffer.lines ∧
    ∀ (size : PhysicalSize) (hl2 : Highlighter Unit Unit),
      (Buffer.new size abBuffer.save hl2).lines = abBuffer.lines :=
  save_load_roundtrip abBuffer (by decide) (by decide)

/-- C1: starting from any well-formed buffer (cursor in bounds — true of
every state reachable through the public interface — and hence at least one
line), any sequence of `handle_char_input` edits leaves at least one line. -/
theorem line_count_always_positive (b : Buffer σ α) (hb : b.wf)
    (inputs : List Char) :
    1 ≤ (inputs.foldl Buffer.handle_char_input b).lines.length := by
  have hwf : (inputs.foldl Buffer.handle_char_input b).wf := by
    induction inputs generalizing b with
    | nil => exact hb
    | cons c rest ih => exact ih _ (wf_handle_char_input b hb c)
  exact Nat.lt_of_le_of_lt (Nat.zero_le _) hwf.1

/-- Witness for C1 at a concrete buffer and a concrete edit sequence
(a character, a newline, two backspaces). -/
theorem line_count_always_positive_witness :
    1 ≤ ((['x', '\n', backspaceChar, backspaceChar].foldl
      Buffer.handle_char_input abBuffer).lines.length) :=
  line_count_always_positive abBuffer (by decide) _

/-- C10: the cursor-in-bounds invariant (`row < lines.len()` and
`col ≤ lines[row].len()`) holds after construction and is preserved by every
public operation: `handle_char_input`, `handle_keyboard_input`,
`handle_mouse_input`, `handle_mouse_move` and `scroll`. -/
theorem public_ops_preserve_wf (σ α : Type) :
    (∀ (size : PhysicalSize) (file : List Char) (hl : Highlighter σ α),
        (Buffer.new size file hl).wf) ∧
    (∀ (b : Buffer σ α), b.wf → ∀ (c : Char), (b.handle_char_input c).wf) ∧
    (∀ (b : Buffer σ α), b.wf → ∀ (i : KeyboardInput), (b.handle_keyboard_input i).wf) ∧
    (∀ (b : Buffer σ α), b.wf → ∀ (button : MouseButton) (state : ElementState)
        (pos : PhysicalPosition), (b.handle_mouse_input button state pos).wf) ∧
    (∀ (b : Buffer σ α), b.wf → ∀ (pos : PhysicalPosition), (b.handle_mouse_move pos).wf) ∧
    (∀ (b : Buffer σ α), b.wf → ∀ (d : ℚ), (b.scroll_by d).wf) :=
  ⟨wf_new, wf_handle_char_input, wf_handle_keyboard_input,
    wf_handle_mouse_input, wf_handle_mouse_move, wf_scroll_by⟩

/-- Witness for C10: the invariant is preserved at a concrete buffer
and a concrete character edit. -/
theorem public_ops_preserve_wf_witness : (abBuffer.handle_char_input 'x').wf :=
  (public_ops_preserve_wf Unit Unit).2.1 abBuffer (by decide) 'x'

/-- C2: a newline input splits the current line at the cursor column, keeps
the head in place, inserts the tail as a new line directly below, and moves
the cursor to `(row+1, 0)` with column affinity 0; in particular from lines
`["abc", "de"]` with cursor `(0,3)` the lines become `["abc", "", "de"]`
with cursor `(1,0)`. -/
theorem newline_splits_current_line (b : Buffer σ α) (hb : b.wf) :
    ((b.handle_char_input '\n').lines =
        b.lines.take b.cursor.location.row ++
          [(b.lines.getD b.cursor.location.row []).take b.cursor.location.col,
            (b.lines.getD b.cursor.location.row []).drop b.cursor.location.col] ++
          b.lines.drop (b.cursor.location.row + 1) ∧
      (b.handle_char_input '\n').cursor.location = ⟨b.cursor.location.row + 1, 0⟩ ∧
      (b.handle_char_input '\n').cursor.col_affinity = 0) ∧
    ((abcBuffer.handle_char_input '\n').lines = [['a','b','c'], [], ['d','e']] ∧
      (abcBuffer.handle_char_input '\n').cursor.location = ⟨1, 0⟩) := by
  refine ⟨⟨?_, ?_, ?_⟩, ?_, ?_⟩
  · rw [handle_char_input_lines]
    unfold Buffer.apply_char_edit
    rw [if_pos (Or.inl rfl)]
    exact set_insertIdx_split b.lines b.cursor.location.row _ _ hb.1
  · rw [handle_char_input_cursor]
    unfold Buffer.apply_char_edit
    rw [if_pos (Or.inl rfl)]
    rfl
  · rw [handle_char_input_cursor]
    unfold Buffer.apply_char_edit
    rw [if_pos (Or.inl rfl)]
    rfl
  · rw [handle_char_input_lines]
    decide
  · rw [handle_char_input_cursor]
    decide

/-- C3: backspace with the cursor at column 0 of a row `> 0` removes the
current line, appends it to the end of the previous line, and moves the
cursor to `(row-1, old previous-line length)` (which also becomes the column
affinity); in particular from lines `["ab", "cd"]` with cursor `(1,0)` the
lines become `["abcd"]` with cursor `(0,2)`. -/
theorem backspace_merges_lines (b : Buffer σ α) (hb : b.wf)
    (hrow : 0 < b.cursor.location.row) (hcol : b.cursor.location.col = 0) :
    ((b.handle_char_input backspaceChar).lines =
        b.lines.take (b.cursor.location.row - 1) ++
          [b.lines.getD (b.cursor.location.row - 1) [] ++
            b.lines.getD b.cursor.location.row []] ++
          b.lines.drop (b.cursor.location.row + 1) ∧
      (b.handle_char_input backspaceChar).cursor.location =
        ⟨b.cursor.location.row - 1,
          (b.lines.getD (b.cursor.location.row - 1) []).length⟩ ∧
      (b.handle_char_input backspaceChar).cursor.col_affinity =
        (b.lines.getD (b.cursor.location.row - 1) []).length) ∧
    ((abBuffer.handle_char_input backspaceChar).lines = [['a','b','c','d']] ∧
      (abBuffer.handle_char_input backspaceChar).cursor.location = ⟨0, 2⟩) := by
  refine ⟨⟨?_, ?_, ?_⟩, ?_, ?_⟩
  · rw [handle_char_input_lines]
    unfold Buffer.apply_char_edit
    rw [if_neg (by decide), if_pos rfl, if_neg (by omega), if_pos hrow]
    dsimp only
    rw [getD_eraseIdx_lt b.lines b.cursor.location.row (b.cursor.location.row - 1) [] (by omega)]
    exact eraseIdx_set_pred b.lines b.cursor.location.row _ hrow hb.1
  · rw [handle_char_input_cursor]
    unfold Buffer.apply_char_edit
    rw [if_neg (by decide), if_pos rfl, if_neg (by omega), if_pos hrow]
    dsimp only [Cursor.set_row, Cursor.set_col_with_affinity]
    rw [getD_eraseIdx_lt b.lines b.cursor.location.row (b.cursor.location.row - 1) [] (by omega)]
  · rw [handle_char_input_cursor]
    unfold Buffer.apply_char_edit
    rw [if_neg (by decide), if_pos rfl, if_neg (by omega), if_pos hrow]
    dsimp only [Cursor.set_row, Cursor.set_col_with_affinity]
    rw [getD_eraseIdx_lt b.lines b.cursor.location.row (b.cursor.location.row - 1) [] (by omega)]
  · rw [handle_char_input_lines]
    decide
  · rw [handle_char_input_cursor]
    decide

/-- Witness for C3 at the concrete buffer `["ab", "cd"]`, cursor `(1,0)`. -/
theorem backspace_merges_lines_witness :
    (abBuffer.handle_char_input backspaceChar).lines =
      abBuffer.lines.take 0 ++
        [abBuffer.lines.getD 0 [] ++ abBuffer.lines.getD 1 []] ++
        abBuffer.lines.drop 2 :=
  ((backspace_merges_lines abBuffer (by decide) (by decide) (by decide)).1).1

/-- C6: at buffer boundaries, backspace at `(0,0)` and forward-delete with no
character at the cursor column are silent no-ops on the lines and cursor. -/
theorem boundary_edits_noop (b : Buffer σ α) (hb : b.wf) :
    (b.cursor.location.row = 0 → b.cursor.location.col = 0 →
      (b.handle_char_input backspaceChar).lines = b.lines ∧
      (b.handle_char_input backspaceChar).cursor = b.cursor) ∧
    ((b.lines.getD b.cursor.location.row []).length ≤ b.cursor.location.col →
      (b.handle_char_input deleteChar).lines = b.lines ∧
      (b.handle_char_input deleteChar).cursor = b.cursor) := by
  constructor
  · intro hr hc
    have hbranch : b.apply_char_edit backspaceChar = b := by
      unfold Buffer.apply_char_edit
      rw [if_neg (by decide), if_pos rfl, if_neg (by omega), if_neg (by omega)]
    rw [handle_char_input_lines, handle_char_input_cursor, hbranch]
    exact ⟨rfl, rfl⟩
  · intro hle
    have hbranch : b.apply_char_edit deleteChar = b := by
      unfold Buffer.apply_char_edit
      rw [if_neg (by decide), if_neg (by decide), if_pos rfl, if_neg (by omega)]
    rw [handle_char_input_lines, handle_char_input_cursor, hbranch]
    exact ⟨rfl, rfl⟩

/-- Witness for C2 at the concrete buffer `["abc", "de"]`, cursor `(0,3)`. -/
theorem newline_splits_current_line_witness :
    (abcBuffer.handle_char_input '\n').lines =
      abcBuffer.lines.take 0 ++
        [(abcBuffer.lines.getD 0 []).take 3, (abcBuffer.lines.getD 0 []).drop 3] ++
        abcBuffer.lines.drop 1 :=
  ((newline_splits_current_line abcBuffer (by decide)).1).1

/-- Witness for C6: forward-delete at the end of `"hello"` is a no-op. -/
theorem boundary_edits_noop_witness :
    (helloBuffer.handle_char_input deleteChar).lines = helloBuffer.lines ∧
    (helloBuffer.handle_char_input deleteChar).cursor = helloBuffer.cursor :=
  (boundary_edits_noop helloBuffer (by decide)).2 (by decide)

/-- C5: pressing Up or Down clears any active selection, moves the cursor one
row clamped into `[0, line_count-1]`, and sets the column to
`min(target line length, column affinity)`; in particular on `["hello"]`
with cursor `(0,5)` and affinity 5, Down leaves the cursor at `(0,5)`. -/
theorem arrow_up_down_clamped_affinity (b : Buffer σ α) (hb : b.wf) :
    ((b.handle_keyboard_input
        { state := ElementState.Pressed,
          virtual_keycode := some VirtualKeyCode.Up }).cursor.selection_start = none ∧
      (b.handle_keyboard_input
        { state := ElementState.Pressed,
          virtual_keycode := some VirtualKeyCode.Up }).cursor.location.row =
        b.cursor.location.row - 1 ∧
      (b.handle_keyboard_input
        { state := ElementState.Pressed,
          virtual_keycode := some VirtualKeyCode.Up }).cursor.location.col =
        min (b.lines.getD (b.cursor.location.row - 1) []).length
          b.cursor.col_affinity) ∧
    ((b.handle_keyboard_input
        { state := ElementState.Pressed,
          virtual_keycode := some VirtualKeyCode.Down }).cursor.selection_start = none ∧
      (b.handle_keyboard_input
        { state := ElementState.Pressed,
          virtual_keycode := some VirtualKeyCode.Down }).cursor.location.row =
        min (b.cursor.location.row + 1) (b.lines.length - 1) ∧
      (b.handle_keyboard_input
        { state := ElementState.Pressed,
          virtual_keycode := some VirtualKeyCode.Down }).cursor.location.col =
        min
          (b.lines.getD (min (b.cursor.location.row + 1) (b.lines.length - 1)) []).length
          b.cursor.col_affinity) ∧
    (helloBuffer.handle_keyboard_input
        { state := ElementState.Pressed,
          virtual_keycode := some VirtualKeyCode.Down }).cursor.location = ⟨0, 5⟩ := by
  obtain ⟨h1, h2⟩ := hb
  have hup : (min (max ((b.cursor.location.row : Int) - 1) 0)
      (b.lines.length : Int)).toNat = b.cursor.location.row - 1 := by omega
  have hdn : (min (max ((b.cursor.location.row : Int) + 1) 0)
      ((b.lines.length : Int) - 1)).toNat =
      min (b.cursor.location.row + 1) (b.lines.length - 1) := by omega
  refine ⟨⟨?_, ?_, ?_⟩, ⟨?_, ?_, ?_⟩, ?_⟩
  · rw [handle_keyboard_pressed, ensure_cursor]
    rfl
  · rw [handle_keyboard_pressed, ensure_cursor]
    unfold Buffer.apply_keyboard
    dsimp only [Cursor.set_row, Cursor.set_col]
    exact hup
  · rw [handle_keyboard_pressed, ensure_cursor]
    unfold Buffer.apply_keyboard
    dsimp only [Cursor.set_row, Cursor.set_col]
    rw [hup]
  · rw [handle_keyboard_pressed, ensure_cursor]
    rfl
  · rw [handle_keyboard_pressed, ensure_cursor]
    unfold Buffer.apply_keyboard
    dsimp only [Cursor.set_row, Cursor.set_col]
    exact hdn
  · rw [handle_keyboard_pressed, ensure_cursor]
    unfold Buffer.apply_keyboard
    dsimp only [Cursor.set_row, Cursor.set_col]
    rw [hdn]
  · rw [handle_keyboard_pressed, ensure_cursor]
    decide

/-- Witness for C5: Down on the one-line buffer `["hello"]` with cursor
`(0,5)`, affinity 5. -/
theorem arrow_up_down_clamped_affinity_witness :
    (helloBuffer.handle_keyboard_input
        { state := ElementState.Pressed,
          virtual_keycode := some VirtualKeyCode.Down }).cursor.location = ⟨0, 5⟩ :=
  (arrow_up_down_clamped_affinity helloBuffer (by decide)).2.2

/-- C7: every highlight rebuild produces exactly one run list per document
line — at construction, after every `handle_char_input`, and for
`generate_highlight_info` itself — and, under the highlighter collaborator's
contract (per line: runs in increasing column order, non-overlapping,
covering `[0, line.length)`), each rebuilt line's run list satisfies that
same contract for the corresponding line. -/
theorem highlight_info_aligned (hl : Highlighter σ α) (lines : List (List Char))
    (hc : ∀ (st : σ) (line : List Char),
      RunsCover 0 line.length (hl.advance_line st line).2) :
    (generate_highlight_info hl lines).length = lines.length ∧
    (∀ (size : PhysicalSize) (file : List Char),
        (Buffer.new size file hl).highlight_info.length =
          (Buffer.new size file hl).lines.length) ∧
    (∀ (b : Buffer σ α) (c : Char),
        (b.handle_char_input c).highlight_info.length =
          (b.handle_char_input c).lines.length) ∧
    (∀ i, i < lines.length →
        RunsCover 0 ((lines.getD i []).length)
          ((generate_highlight_info hl lines).getD i [])) := by
  refine ⟨generate_highlight_info_length hl lines, ?_, ?_, ?_⟩
  · intro size file
    unfold Buffer.new
    exact generate_highlight_info_length _ _
  · intro b c
    rw [handle_char_input_highlight]
    exact generate_highlight_info_length _ _
  · exact genHighlightGo_contract hl hc hl.init lines

/-- Witness for C7 with a concrete full-line highlighter over two lines. -/
theorem highlight_info_aligned_witness :
    (generate_highlight_info fullLineHl [['a','b'], ['c']]).length =
      ([['a','b'], ['c']] : List (List Char)).length ∧
    (∀ (size : PhysicalSize) (file : List Char),
        (Buffer.new size file fullLineHl).highlight_info.length =
          (Buffer.new size file fullLineHl).lines.length) ∧
    (∀ (b : Buffer Unit Unit) (c : Char),
        (b.handle_char_input c).highlight_info.length =
          (b.handle_char_input c).lines.length) ∧
    (∀ i, i < ([['a','b'], ['c']] : List (List Char)).length →
        RunsCover 0 ((([['a','b'], ['c']] : List (List Char)).getD i []).length)
          ((generate_highlight_info fullLineHl [['a','b'], ['c']]).getD i [])) :=
  highlight_info_aligned fullLineHl [['a','b'], ['c']]
    (fun _ line => ⟨rfl, Nat.zero_le line.length, rfl⟩)

/-- C8 counterexample: with a 30-pixel-tall viewport, one line, cursor at
`(0,0)` and `scroll = 10`, the first `ensure_cursor_in_view` sets `scroll`
to 0 and the second call changes it again (to 15), so the viewport
visibility correction is NOT idempotent for every buffer state. -/
theorem ensure_cursor_in_view_not_idempotent :
    (smallViewBuffer.ensure_cursor_in_view.ensure_cursor_in_view).scroll ≠
      smallViewBuffer.ensure_cursor_in_view.scroll := by
  have e1 : smallViewBuffer.ensure_cursor_in_view =
      { smallViewBuffer with scroll := 0 } := by
    unfold Buffer.ensure_cursor_in_view
    rw [if_pos (by norm_num [smallViewBuffer, Cursor.new, Location.new, SCALE])]
    norm_num [smallViewBuffer, Cursor.new, Location.new, SCALE]
  have e2 : ({ smallViewBuffer with scroll := 0 } : Buffer Unit Unit).ensure_cursor_in_view =
      { smallViewBuffer with scroll := 15 } := by
    unfold Buffer.ensure_cursor_in_view
    rw [if_neg (by norm_num [smallViewBuffer, Cursor.new, Location.new, SCALE]),
      if_pos (by norm_num [smallViewBuffer, Cursor.new, Location.new, SCALE])]
    norm_num [smallViewBuffer, Cursor.new, Location.new, SCALE]
  rw [e1, e2]
  norm_num

/-- C8 amended: the viewport visibility correction is idempotent whenever the
viewport is at least `SCALE + 5 = 45` pixels tall (for shorter viewports the
two correction branches can keep alternating, as the counterexample shows):
under that bound, a second `ensure_cursor_in_view` with no intervening edits,
cursor moves or size changes returns the buffer unchanged. -/
theorem ensure_cursor_in_view_idempotent_tall (b : Buffer σ α)
    (h : (45 : ℚ) ≤ (b.size.height : ℚ)) :
    b.ensure_cursor_in_view.ensure_cursor_in_view = b.ensure_cursor_in_view := by
  by_cases h1 : ((b.cursor.location.row : ℚ) * SCALE) < b.scroll
  · have e1 : b.ensure_cursor_in_view =
        { b with scroll := (b.cursor.location.row : ℚ) * SCALE } := by
      unfold Buffer.ensure_cursor_in_view
      rw [if_pos h1]
    rw [e1]
    unfold Buffer.ensure_cursor_in_view
    rw [if_neg (by dsimp only; exact lt_irrefl _),
      if_neg (by dsimp only; rw [SCALE]; intro hgt; nlinarith)]
  · by_cases h2 : ((b.cursor.location.row : ℚ) * SCALE) + SCALE >
        b.scroll + (b.size.height : ℚ)
    · have e1 : b.ensure_cursor_in_view =
          { b with scroll := (b.cursor.location.row : ℚ) * SCALE -
            (b.size.height : ℚ) + SCALE + 5 } := by
        unfold Buffer.ensure_cursor_in_view
        rw [if_neg h1, if_pos h2]
      rw [e1]
      unfold Buffer.ensure_cursor_in_view
      rw [if_neg (by dsimp only; rw [SCALE] at *; intro hlt; nlinarith),
        if_neg (by dsimp only; rw [SCALE] at *; intro hgt; nlinarith)]
    · have e1 : b.ensure_cursor_in_view = b := by
        unfold Buffer.ensure_cursor_in_view
        rw [if_neg h1, if_neg h2]
      rw [e1, e1]

/-- Witness for the amended C8 at a concrete 45-pixel-tall buffer. -/
theorem ensure_cursor_in_view_idempotent_tall_witness :
    tallViewBuffer.ensure_cursor_in_view.ensure_cursor_in_view =
      tallViewBuffer.ensure_cursor_in_view :=
  ensure_cursor_in_view_idempotent_tall tallViewBuffer (by norm_num [tallViewBuffer])
